import Mathlib

/-!
Shallow embedding of the `AdvancedCounter` React component
(`src/AdvancedCounter.tsx`): a counter with history tracking, a
`localStorage` auto-save effect keyed on `count`, a document keydown
listener effect keyed on `step`, and a clamped step input.

JavaScript numbers produced by this widget are either genuine integers or
`NaN` (from `parseInt` on a malformed string); we model them as
`Option Int` with `none` standing for `NaN`.
-/

namespace AdvancedCounter

/-- A JavaScript number as this widget produces them: an integer, or
`none` standing for `NaN`. -/
abbrev JSNum := Option Int

/-- JavaScript addition of a genuine integer to such a number: `NaN`
propagates. -/
def jsAdd : JSNum → Int → JSNum
  | none, _ => none
  | some a, d => some (a + d)

/-- `Number.prototype.toString()` for the values occurring here: decimal
form for integers, the string "NaN" for `NaN`. -/
def jsToString : JSNum → String
  | none => "NaN"
  | some n => toString n

/-- Longest leading run of decimal digits of a character list. -/
def leadingDigits : List Char → List Char
  | [] => []
  | c :: cs => if c.isDigit then c :: leadingDigits cs else []

/-- Numeric value of a digit list, most significant digit first
(48 is the code point of the digit zero). -/
def digitsVal (ds : List Char) : Nat :=
  ds.foldl (fun acc c => 10 * acc + (c.toNat - 48)) 0

/-- JavaScript `parseInt(s, 10)`: skip leading whitespace, read an optional
sign and then the longest run of decimal digits, ignoring everything after
it; the result is `NaN` (here `none`) exactly when no digit was read. -/
def parseIntJS (s : String) : Option Int :=
  let cs := s.toList.dropWhile (fun c => c == ' ' || c == '\t' || c == '\n' || c == '\r')
  let signed : Bool × List Char :=
    match cs with
    | [] => (false, [])
    | c :: rest =>
      if c == '-' then (true, rest)
      else if c == '+' then (false, rest)
      else (false, cs)
  let ds := leadingDigits signed.2
  if ds = [] then none
  else if signed.1 then some (-(digitsVal ds : Int))
  else some ((digitsVal ds : Int))

/-- The full observable state of the mounted widget: the three `useState`
values (`count`, `history`, `step`), the persisted `localStorage` slot
under the key `advancedCounterValue`, and the keydown listeners currently
attached to the document, each identified by the `step` value its closure
captured. -/
structure Widget where
  count : JSNum
  history : List JSNum
  step : Int
  slot : Option String
  listeners : List Int
  deriving DecidableEq

/-- The `useState` initializer for `count` (source lines 28-35): parse the
stored string when present, else 0. -/
def initCount : Option String → JSNum
  | some s => parseIntJS s
  | none => some 0

/-- The `useState` initializer for `history` (source lines 43-50): a
one-element history holding the parsed stored string when present, else
`[0]`. -/
def initHistory : Option String → List JSNum
  | some s => [parseIntJS s]
  | none => [some 0]

/-- The state right after the initial render, before any effect has run:
lazy initializers have read the stored slot once, `step` is 1, no listener
is attached yet. -/
def mount (stored : Option String) : Widget :=
  { count := initCount stored
    history := initHistory stored
    step := 1
    slot := stored
    listeners := [] }

/-- The first run of the two effects after mount: the auto-save effect
writes `count.toString()` to the slot (source lines 65-70) and the
keyboard effect attaches one listener closing over the current `step`
(source lines 88-116). -/
def mountEffects (w : Widget) : Widget :=
  { w with slot := some (jsToString w.count), listeners := w.listeners ++ [w.step] }

/-- A freshly mounted widget with its initial effects already run. -/
def mountAndRun (stored : Option String) : Widget :=
  mountEffects (mount stored)

/-- The functional update shared by `handleIncrement`, `handleDecrement`
and `handleKeyPress` (source lines 128-148): read the latest count, add
the delta, append the new count to the history. -/
def applyDelta (d : Int) (w : Widget) : Widget :=
  let newCount := jsAdd w.count d
  { w with count := newCount, history := w.history ++ [newCount] }

/-- `handleReset` (source lines 157-160): count back to 0, history back to
the single element `[0]`. -/
def handleReset (w : Widget) : Widget :=
  { w with count := some 0, history := [some 0] }

/-- `handleStepChange` (source lines 169-175): parse the input field,
ignore the edit when it is `NaN`, otherwise clamp with `Math.max(1, n)`. -/
def handleStepChange (s : String) (w : Widget) : Widget :=
  match parseIntJS s with
  | some n => { w with step := max 1 n }
  | none => w

/-- The keydown handler attached by the keyboard effect (source lines
90-106); `cap` is the `step` value the closure captured when the effect
ran. The count and history updates are functional, so they read the
then-current state. -/
def handleKeyPress (cap : Int) (k : String) (w : Widget) : Widget :=
  if k = "ArrowUp" then applyDelta cap w
  else if k = "ArrowDown" then applyDelta (-cap) w
  else w

/-- The discrete input events the widget reacts to. -/
inductive Event where
  | clickInc
  | clickDec
  | clickReset
  | stepInput (s : String)
  | keydown (k : String)
  deriving DecidableEq

/-- A document keydown reaches every attached listener in order; each runs
with the step it captured against the then-current state. -/
def keyFold (ls : List Int) (k : String) (w : Widget) : Widget :=
  ls.foldl (fun acc cap => handleKeyPress cap k acc) w

/-- The raw handler work of one event, before re-render effects. Button
clicks call the handlers of the current render, which close over the
current `step`. -/
def handle : Event → Widget → Widget
  | Event.clickInc, w => applyDelta w.step w
  | Event.clickDec, w => applyDelta (-w.step) w
  | Event.clickReset, w => handleReset w
  | Event.stepInput s, w => handleStepChange s w
  | Event.keydown k, w => keyFold w.listeners k w

/-- The effects of the re-render that follows an event: the auto-save
effect fires iff `count` changed (dependency array `[count]`), writing
`count.toString()` to the slot; the keyboard effect fires iff `step`
changed (dependency array `[step]`), its cleanup first removing the
listener the previous run attached (which captured the old step) and then
attaching a fresh listener capturing the new step. -/
def runEffects (prev next : Widget) : Widget :=
  let w1 := if next.count = prev.count then next
            else { next with slot := some (jsToString next.count) }
  if next.step = prev.step then w1
  else { w1 with listeners := (w1.listeners.erase prev.step) ++ [next.step] }

/-- One full event turn: the handlers run, then the effects of the
resulting re-render. -/
def dispatch (ev : Event) (w : Widget) : Widget :=
  runEffects w (handle ev w)

/-- Fold a sequence of events over a state. -/
def runEvents (w : Widget) (evs : List Event) : Widget :=
  evs.foldl (fun acc ev => dispatch ev acc) w

/-- On unmount the keyboard effect cleanup removes the listener it
attached; this is what remains attached to the document afterwards. -/
def unmountDoc (w : Widget) : List Int :=
  w.listeners.erase w.step

/-- Left fold of `applyDelta` over a sequence of deltas. -/
def applyDeltas (ds : List Int) (w : Widget) : Widget :=
  ds.foldl (fun acc d => applyDelta d acc) w

/-- An increment (`true`) or decrement (`false`) button click. -/
def clickEv (b : Bool) : Event :=
  if b then Event.clickInc else Event.clickDec

/-- The deltas a sequence of clicks stands for, at a fixed step value. -/
def clickDeltas (st : Int) (bs : List Bool) : List Int :=
  bs.map (fun b => if b then st else -st)

/-- The widget reached from a given stored slot after a sequence of
events. -/
def reached (stored : Option String) (evs : List Event) : Widget :=
  runEvents (mountAndRun stored) evs

/-! ### Basic lemmas about the effect layer -/

theorem runEffects_count (p n : Widget) : (runEffects p n).count = n.count := by
  unfold runEffects
  by_cases h1 : n.count = p.count <;> by_cases h2 : n.step = p.step <;> simp [h1, h2]

theorem runEffects_history (p n : Widget) : (runEffects p n).history = n.history := by
  unfold runEffects
  by_cases h1 : n.count = p.count <;> by_cases h2 : n.step = p.step <;> simp [h1, h2]

theorem runEffects_step (p n : Widget) : (runEffects p n).step = n.step := by
  unfold runEffects
  by_cases h1 : n.count = p.count <;> by_cases h2 : n.step = p.step <;> simp [h1, h2]

theorem runEffects_slot_of_count_eq (p n : Widget) (h : n.count = p.count) :
    (runEffects p n).slot = n.slot := by
  unfold runEffects
  by_cases h2 : n.step = p.step <;> simp [h, h2]

theorem runEffects_slot_of_count_ne (p n : Widget) (h : ¬ n.count = p.count) :
    (runEffects p n).slot = some (jsToString n.count) := by
  unfold runEffects
  by_cases h2 : n.step = p.step <;> simp [h, h2]

theorem runEffects_listeners_of_step_eq (p n : Widget) (h : n.step = p.step) :
    (runEffects p n).listeners = n.listeners := by
  unfold runEffects
  by_cases h1 : n.count = p.count <;> simp [h, h1]

theorem runEffects_listeners_of_step_ne (p n : Widget) (h : ¬ n.step = p.step) :
    (runEffects p n).listeners = (n.listeners.erase p.step) ++ [n.step] := by
  unfold runEffects
  by_cases h1 : n.count = p.count <;> simp [h, h1]

theorem runEffects_self (w : Widget) : runEffects w w = w := by
  unfold runEffects
  simp

/-! ### Basic lemmas about the handlers -/

theorem applyDelta_count (d : Int) (w : Widget) :
    (applyDelta d w).count = jsAdd w.count d := rfl

theorem applyDelta_history (d : Int) (w : Widget) :
    (applyDelta d w).history = w.history ++ [jsAdd w.count d] := rfl

theorem applyDelta_step (d : Int) (w : Widget) : (applyDelta d w).step = w.step := rfl

theorem applyDelta_listeners (d : Int) (w : Widget) :
    (applyDelta d w).listeners = w.listeners := rfl

theorem handle_clickInc (w : Widget) : handle Event.clickInc w = applyDelta w.step w := rfl

theorem handle_clickDec (w : Widget) :
    handle Event.clickDec w = applyDelta (-w.step) w := rfl

theorem handle_clickReset (w : Widget) : handle Event.clickReset w = handleReset w := rfl

theorem handle_stepInput (s : String) (w : Widget) :
    handle (Event.stepInput s) w = handleStepChange s w := rfl

theorem handle_keydown (k : String) (w : Widget) :
    handle (Event.keydown k) w = keyFold w.listeners k w := rfl

theorem keyFold_singleton (cap : Int) (k : String) (w : Widget) :
    keyFold [cap] k w = handleKeyPress cap k w := rfl

theorem runEvents_nil (w : Widget) : runEvents w [] = w := rfl

theorem runEvents_cons (w : Widget) (ev : Event) (evs : List Event) :
    runEvents w (ev :: evs) = runEvents (dispatch ev w) evs := rfl

/-! ### The reachable-state invariant -/

/-- Invariant holding in every state reachable from a mount: exactly one
keydown listener is attached and it captured the current step, the last
history entry is the current count, the persisted slot mirrors the current
count, and the step is at least 1. -/
def Inv (w : Widget) : Prop :=
  w.listeners = [w.step] ∧
  w.history.getLast? = some w.count ∧
  w.slot = some (jsToString w.count) ∧
  1 ≤ w.step

theorem Inv_mountAndRun (stored : Option String) : Inv (mountAndRun stored) := by
  refine ⟨rfl, ?_, rfl, le_refl 1⟩
  cases stored <;> simp [mountAndRun, mountEffects, mount, initCount, initHistory]

theorem Inv_runEffects_applyDelta (w : Widget) (d : Int) (h : Inv w) :
    Inv (runEffects w (applyDelta d w)) := by
  obtain ⟨hl, hlast, hslot, hstep⟩ := h
  refine ⟨?_, ?_, ?_, ?_⟩
  · rw [runEffects_listeners_of_step_eq _ _ (applyDelta_step d w),
      applyDelta_listeners, runEffects_step, applyDelta_step, hl]
  · rw [runEffects_history, runEffects_count, applyDelta_history, applyDelta_count,
      List.getLast?_concat]
  · by_cases hc : (applyDelta d w).count = w.count
    · rw [runEffects_slot_of_count_eq _ _ hc, runEffects_count, hc]
      simpa [applyDelta] using hslot
    · rw [runEffects_slot_of_count_ne _ _ hc, runEffects_count]
  · rw [runEffects_step, applyDelta_step]; exact hstep

theorem Inv_dispatch (ev : Event) (w : Widget) (h : Inv w) : Inv (dispatch ev w) := by
  obtain ⟨hl, hlast, hslot, hstep⟩ := h
  cases ev with
  | clickInc => exact Inv_runEffects_applyDelta w w.step ⟨hl, hlast, hslot, hstep⟩
  | clickDec => exact Inv_runEffects_applyDelta w (-w.step) ⟨hl, hlast, hslot, hstep⟩
  | clickReset =>
    unfold dispatch
    rw [handle_clickReset]
    refine ⟨?_, ?_, ?_, ?_⟩
    · rw [runEffects_listeners_of_step_eq w (handleReset w) rfl, runEffects_step]
      exact hl
    · rw [runEffects_history, runEffects_count]
      rfl
    · by_cases hc : (handleReset w).count = w.count
      · rw [runEffects_slot_of_count_eq _ _ hc, runEffects_count, hc]
        simpa [handleReset] using hslot
      · rw [runEffects_slot_of_count_ne _ _ hc, runEffects_count]
    · rw [runEffects_step]
      exact hstep
  | stepInput s =>
    unfold dispatch
    rw [handle_stepInput]
    cases hp : parseIntJS s with
    | none =>
      rw [show handleStepChange s w = w by simp [handleStepChange, hp], runEffects_self]
      exact ⟨hl, hlast, hslot, hstep⟩
    | some n =>
      have hsc : handleStepChange s w = { w with step := max 1 n } := by
        simp [handleStepChange, hp]
      rw [hsc]
      refine ⟨?_, ?_, ?_, ?_⟩
      · by_cases hs : ({ w with step := max 1 n } : Widget).step = w.step
        · rw [runEffects_listeners_of_step_eq _ _ hs, runEffects_step]
          simp only at hs
          simpa [hs] using hl
        · rw [runEffects_listeners_of_step_ne _ _ hs, runEffects_step]
          simp [hl]
      · rw [runEffects_history, runEffects_count]
        exact hlast
      · rw [runEffects_slot_of_count_eq w { w with step := max 1 n } rfl, runEffects_count]
        exact hslot
      · rw [runEffects_step]
        exact le_max_left 1 n
  | keydown k =>
    unfold dispatch
    rw [handle_keydown, hl, keyFold_singleton]
    unfold handleKeyPress
    by_cases hup : k = "ArrowUp"
    · rw [if_pos hup]
      exact Inv_runEffects_applyDelta w w.step ⟨hl, hlast, hslot, hstep⟩
    · rw [if_neg hup]
      by_cases hdn : k = "ArrowDown"
      · rw [if_pos hdn]
        exact Inv_runEffects_applyDelta w (-w.step) ⟨hl, hlast, hslot, hstep⟩
      · rw [if_neg hdn, runEffects_self]
        exact ⟨hl, hlast, hslot, hstep⟩

theorem Inv_runEvents (evs : List Event) (w : Widget) (h : Inv w) :
    Inv (runEvents w evs) := by
  induction evs generalizing w with
  | nil => exact h
  | cons ev evs ih => exact ih (dispatch ev w) (Inv_dispatch ev w h)

theorem Inv_reached (stored : Option String) (evs : List Event) :
    Inv (reached stored evs) :=
  Inv_runEvents evs (mountAndRun stored) (Inv_mountAndRun stored)

/-! ### Click sequences compose like a fold of applyDelta -/

/-- Two states agreeing on count, history and step. -/
def SameCore (a b : Widget) : Prop :=
  a.count = b.count ∧ a.history = b.history ∧ a.step = b.step

theorem SameCore.rfl (w : Widget) : SameCore w w := ⟨Eq.refl _, Eq.refl _, Eq.refl _⟩

theorem SameCore.trans {a b c : Widget} (h1 : SameCore a b) (h2 : SameCore b c) :
    SameCore a c :=
  ⟨h1.1.trans h2.1, h1.2.1.trans h2.2.1, h1.2.2.trans h2.2.2⟩

theorem applyDelta_congr (d : Int) {a b : Widget} (h : SameCore a b) :
    SameCore (applyDelta d a) (applyDelta d b) := by
  obtain ⟨hc, hh, hs⟩ := h
  exact ⟨by rw [applyDelta_count, applyDelta_count, hc],
    by rw [applyDelta_history, applyDelta_history, hc, hh],
    by rw [applyDelta_step, applyDelta_step, hs]⟩

theorem dispatch_click_core (b : Bool) (w : Widget) :
    SameCore (dispatch (clickEv b) w) (applyDelta (if b then w.step else -w.step) w) := by
  cases b <;>
    exact ⟨by unfold dispatch clickEv; rw [runEffects_count]; rfl,
      by unfold dispatch clickEv; rw [runEffects_history]; rfl,
      by unfold dispatch clickEv; rw [runEffects_step]; rfl⟩

theorem clicks_fold (st : Int) (bs : List Bool) :
    ∀ a b : Widget, SameCore a b → b.step = st →
      SameCore (runEvents a (bs.map clickEv)) (applyDeltas (clickDeltas st bs) b) := by
  induction bs with
  | nil =>
    intro a b h _
    exact h
  | cons x xs ih =>
    intro a b h hst
    have hstep_a : a.step = st := h.2.2.trans hst
    have h1 : SameCore (dispatch (clickEv x) a) (applyDelta (if x then st else -st) b) := by
      have h2 := dispatch_click_core x a
      rw [hstep_a] at h2
      exact h2.trans (applyDelta_congr _ h)
    have h3 : (applyDelta (if x then st else -st) b).step = st := by
      rw [applyDelta_step]; exact hst
    exact ih (dispatch (clickEv x) a) (applyDelta (if x then st else -st) b) h1 h3

/-! ### Small helpers about histories and handlers -/

theorem head?_append_left {α : Type} (l t : List α) (h : l ≠ []) :
    (l ++ t).head? = l.head? := by
  cases l with
  | nil => exact absurd rfl h
  | cons a l => rfl

theorem ne_nil_of_getLast?_eq_some {α : Type} {l : List α} {x : α}
    (h : l.getLast? = some x) : l ≠ [] := by
  intro hnil
  rw [hnil] at h
  exact Option.noConfusion h

theorem handleStepChange_count (s : String) (w : Widget) :
    (handleStepChange s w).count = w.count := by
  unfold handleStepChange
  cases parseIntJS s <;> rfl

theorem handleStepChange_history (s : String) (w : Widget) :
    (handleStepChange s w).history = w.history := by
  unfold handleStepChange
  cases parseIntJS s <;> rfl

theorem dispatch_history_extends (ev : Event) (w : Widget) (h : Inv w)
    (hne : ev ≠ Event.clickReset) :
    ∃ t, (dispatch ev w).history = w.history ++ t := by
  cases ev with
  | clickInc =>
    exact ⟨[jsAdd w.count w.step], by
      unfold dispatch
      rw [handle_clickInc, runEffects_history, applyDelta_history]⟩
  | clickDec =>
    exact ⟨[jsAdd w.count (-w.step)], by
      unfold dispatch
      rw [handle_clickDec, runEffects_history, applyDelta_history]⟩
  | clickReset => exact absurd rfl hne
  | stepInput s =>
    exact ⟨[], by
      unfold dispatch
      rw [handle_stepInput, runEffects_history, handleStepChange_history, List.append_nil]⟩
  | keydown k =>
    unfold dispatch
    rw [handle_keydown, h.1, keyFold_singleton]
    unfold handleKeyPress
    by_cases hup : k = "ArrowUp"
    · rw [if_pos hup]
      exact ⟨[jsAdd w.count w.step], by rw [runEffects_history, applyDelta_history]⟩
    · rw [if_neg hup]
      by_cases hdn : k = "ArrowDown"
      · rw [if_pos hdn]
        exact ⟨[jsAdd w.count (-w.step)], by rw [runEffects_history, applyDelta_history]⟩
      · rw [if_neg hdn, runEffects_self]
        exact ⟨[], (List.append_nil w.history).symm⟩

theorem handleStepChange_slot (s : String) (w : Widget) :
    (handleStepChange s w).slot = w.slot := by
  unfold handleStepChange
  cases parseIntJS s <;> rfl

theorem handleKeyPress_slot (cap : Int) (k : String) (w : Widget) :
    (handleKeyPress cap k w).slot = w.slot := by
  unfold handleKeyPress
  by_cases hup : k = "ArrowUp"
  · rw [if_pos hup]; rfl
  · rw [if_neg hup]
    by_cases hdn : k = "ArrowDown"
    · rw [if_pos hdn]; rfl
    · rw [if_neg hdn]

theorem keyFold_slot (ls : List Int) (k : String) (w : Widget) :
    (keyFold ls k w).slot = w.slot := by
  induction ls generalizing w with
  | nil => rfl
  | cons c cs ih =>
    show (keyFold cs k (handleKeyPress c k w)).slot = w.slot
    rw [ih (handleKeyPress c k w), handleKeyPress_slot]

theorem handle_slot (ev : Event) (w : Widget) : (handle ev w).slot = w.slot := by
  cases ev with
  | clickInc => rfl
  | clickDec => rfl
  | clickReset => rfl
  | stepInput t => exact handleStepChange_slot t w
  | keydown k => exact keyFold_slot w.listeners k w

theorem handleKeyPress_up (cap : Int) (w : Widget) :
    handleKeyPress cap ("ArrowUp") w = applyDelta cap w := by
  unfold handleKeyPress
  rw [if_pos rfl]

theorem handleKeyPress_down (cap : Int) (w : Widget) :
    handleKeyPress cap ("ArrowDown") w = applyDelta (-cap) w := by
  unfold handleKeyPress
  rw [if_neg (by decide), if_pos rfl]

theorem handleKeyPress_other (cap : Int) (k : String) (w : Widget)
    (h1 : ¬ k = "ArrowUp") (h2 : ¬ k = "ArrowDown") :
    handleKeyPress cap k w = w := by
  unfold handleKeyPress
  rw [if_neg h1, if_neg h2]

/-! ### After mount, no event depends on the persisted slot contents -/

theorem handleKeyPress_slotSet (cap : Int) (k : String) (w : Widget) (s : Option String) :
    handleKeyPress cap k { w with slot := s } = { handleKeyPress cap k w with slot := s } := by
  unfold handleKeyPress
  by_cases hup : k = "ArrowUp"
  · rw [if_pos hup, if_pos hup]; rfl
  · rw [if_neg hup, if_neg hup]
    by_cases hdn : k = "ArrowDown"
    · rw [if_pos hdn, if_pos hdn]; rfl
    · rw [if_neg hdn, if_neg hdn]

theorem keyFold_slotSet (ls : List Int) (k : String) (w : Widget) (s : Option String) :
    keyFold ls k { w with slot := s } = { keyFold ls k w with slot := s } := by
  induction ls generalizing w with
  | nil => rfl
  | cons c cs ih =>
    show keyFold cs k (handleKeyPress c k { w with slot := s })
      = { keyFold cs k (handleKeyPress c k w) with slot := s }
    rw [handleKeyPress_slotSet]
    exact ih (handleKeyPress c k w)

theorem handle_slotSet (ev : Event) (w : Widget) (s : Option String) :
    handle ev { w with slot := s } = { handle ev w with slot := s } := by
  cases ev with
  | clickInc => rfl
  | clickDec => rfl
  | clickReset => rfl
  | stepInput t =>
    show handleStepChange t { w with slot := s } = { handleStepChange t w with slot := s }
    unfold handleStepChange
    cases parseIntJS t <;> rfl
  | keydown k =>
    exact keyFold_slotSet w.listeners k w s

theorem dispatch_slotSet_core (ev : Event) (w : Widget) (s : Option String) :
    (dispatch ev { w with slot := s }).count = (dispatch ev w).count ∧
    (dispatch ev { w with slot := s }).history = (dispatch ev w).history ∧
    (dispatch ev { w with slot := s }).step = (dispatch ev w).step ∧
    (dispatch ev { w with slot := s }).listeners = (dispatch ev w).listeners := by
  unfold dispatch
  rw [handle_slotSet]
  refine ⟨?_, ?_, ?_, ?_⟩
  · rw [runEffects_count, runEffects_count]
  · rw [runEffects_history, runEffects_history]
  · rw [runEffects_step, runEffects_step]
  · by_cases hs : (handle ev w).step = w.step
    · rw [runEffects_listeners_of_step_eq { w with slot := s } { handle ev w with slot := s } hs,
        runEffects_listeners_of_step_eq w (handle ev w) hs]
    · rw [runEffects_listeners_of_step_ne { w with slot := s } { handle ev w with slot := s } hs,
        runEffects_listeners_of_step_ne w (handle ev w) hs]

/-! ### The claims -/

/-- C1: Increment/decrement transitions compose sequentially against the
latest state: for every starting state and every finite sequence of
increment/decrement clicks, the resulting count and history equal the left
fold of `applyDelta` over the corresponding delta sequence; concretely,
from count 0 with step 3, three consecutive increments yield count 9 and
history [0, 3, 6, 9], and a following decrement yields count 6 and
history [0, 3, 6, 9, 6]. -/
theorem transitions_fold_compose :
    (∀ (w : Widget) (bs : List Bool),
      (runEvents w (bs.map clickEv)).count = (applyDeltas (clickDeltas w.step bs) w).count ∧
      (runEvents w (bs.map clickEv)).history
        = (applyDeltas (clickDeltas w.step bs) w).history) ∧
    ((runEvents (dispatch (Event.stepInput ("3")) (mountAndRun none))
        [Event.clickInc, Event.clickInc, Event.clickInc]).count = some 9 ∧
      (runEvents (dispatch (Event.stepInput ("3")) (mountAndRun none))
        [Event.clickInc, Event.clickInc, Event.clickInc]).history
          = [some 0, some 3, some 6, some 9] ∧
      (runEvents (dispatch (Event.stepInput ("3")) (mountAndRun none))
        [Event.clickInc, Event.clickInc, Event.clickInc, Event.clickDec]).count = some 6 ∧
      (runEvents (dispatch (Event.stepInput ("3")) (mountAndRun none))
        [Event.clickInc, Event.clickInc, Event.clickInc, Event.clickDec]).history
          = [some 0, some 3, some 6, some 9, some 6]) := by
  constructor
  · intro w bs
    have h := clicks_fold w.step bs w w (SameCore.rfl w) (Eq.refl w.step)
    exact ⟨h.1, h.2.1⟩
  · exact ⟨by decide, by decide, by decide, by decide⟩

/-- C2 counterexample: at the malformed stored value "abc" the two
initialization paths do not diverge — the count initializer yields NaN and
the history initializer yields the one-element history holding that very
same NaN, not a valid default. -/
theorem malformed_init_no_divergence_cex :
    parseIntJS ("abc") = none ∧
    (mount (some ("abc"))).count = none ∧
    (mount (some ("abc"))).history = [none] ∧
    ¬ (mount (some ("abc"))).history = [some 0] ∧
    initHistory (some ("abc")) = [initCount (some ("abc"))] := by
  exact ⟨by decide, by decide, by decide, by decide, by decide⟩

/-- C2 (amended): when the persisted slot is present but not parseable as
an integer, both initialization paths behave identically: the count is
NaN, the history is the one-element [NaN] repeating exactly the count
path's value, and the mount-time auto-save then persists the string
"NaN". -/
theorem malformed_init_uniform_nan (s : String) (h : parseIntJS s = none) :
    (mount (some s)).count = none ∧
    (mount (some s)).history = [none] ∧
    initHistory (some s) = [initCount (some s)] ∧
    (mountAndRun (some s)).slot = some ("NaN") := by
  refine ⟨?_, ?_, ?_, ?_⟩
  · show initCount (some s) = none
    unfold initCount
    exact h
  · show [parseIntJS s] = [none]
    rw [h]
  · rfl
  · show some (jsToString (parseIntJS s)) = some ("NaN")
    rw [h]
    rfl

/-- Witness for the amended C2 at the concrete stored value "abc". -/
theorem malformed_init_uniform_nan_witness :
    (mount (some ("abc"))).count = none ∧
    (mount (some ("abc"))).history = [none] ∧
    initHistory (some ("abc")) = [initCount (some ("abc"))] ∧
    (mountAndRun (some ("abc"))).slot = some ("NaN") :=
  malformed_init_uniform_nan ("abc") (by decide)

/-- C3: The history invariant: at mount the history is the single initial
count and its head is the mounted count; in every reachable state the last
history entry equals the count; a reset rebuilds the one-element history
[0] with count 0; every non-reset event preserves the first history entry
and only appends to the history; an increment or decrement click appends
exactly its one new count. -/
theorem history_invariant_reachable :
    (∀ stored : Option String,
      (mountAndRun stored).history = [initCount stored] ∧
      (mountAndRun stored).history.head? = some (mountAndRun stored).count) ∧
    (∀ (stored : Option String) (evs : List Event),
      (reached stored evs).history.getLast? = some (reached stored evs).count) ∧
    (∀ w : Widget,
      (dispatch Event.clickReset w).count = some 0 ∧
      (dispatch Event.clickReset w).history = [some 0]) ∧
    (∀ (stored : Option String) (evs : List Event) (ev : Event),
      ¬ ev = Event.clickReset →
        (dispatch ev (reached stored evs)).history.head?
          = (reached stored evs).history.head? ∧
        ∃ t, (dispatch ev (reached stored evs)).history
          = (reached stored evs).history ++ t) ∧
    (∀ (w : Widget) (b : Bool),
      (dispatch (clickEv b) w).history
        = w.history ++ [(dispatch (clickEv b) w).count]) := by
  refine ⟨?_, ?_, ?_, ?_, ?_⟩
  · intro stored
    constructor
    · cases stored <;> rfl
    · cases stored <;> rfl
  · intro stored evs
    exact (Inv_reached stored evs).2.1
  · intro w
    constructor
    · unfold dispatch
      rw [handle_clickReset, runEffects_count]
      rfl
    · unfold dispatch
      rw [handle_clickReset, runEffects_history]
      rfl
  · intro stored evs ev hne
    have hInv := Inv_reached stored evs
    obtain ⟨t, ht⟩ := dispatch_history_extends ev (reached stored evs) hInv hne
    refine ⟨?_, ⟨t, ht⟩⟩
    rw [ht]
    exact head?_append_left _ t (ne_nil_of_getLast?_eq_some hInv.2.1)
  · intro w b
    cases b <;>
      (unfold dispatch clickEv
       rw [runEffects_history, runEffects_count]
       rfl)

/-- Witness for C3 at a concrete reachable state and non-reset event. -/
theorem history_invariant_reachable_witness :
    (dispatch Event.clickInc (reached none [])).history.head?
      = (reached none []).history.head? ∧
    ∃ t, (dispatch Event.clickInc (reached none [])).history
      = (reached none []).history ++ t :=
  history_invariant_reachable.2.2.2.1 none [] Event.clickInc (by decide)

/-- C7: Reset is total and state independent: from every state, one reset
click yields count 0 and the one-element history [0], and leaves the step
unchanged. -/
theorem reset_total (w : Widget) :
    (dispatch Event.clickReset w).count = some 0 ∧
    (dispatch Event.clickReset w).history = [some 0] ∧
    (dispatch Event.clickReset w).step = w.step := by
  refine ⟨?_, ?_, ?_⟩
  · unfold dispatch
    rw [handle_clickReset, runEffects_count]
    rfl
  · unfold dispatch
    rw [handle_clickReset, runEffects_history]
    rfl
  · unfold dispatch
    rw [handle_clickReset, runEffects_step]
    rfl

/-- C4: The persisted slot mirrors the count and only the count: in every
reachable state the slot holds `count.toString()`; a step edit never
alters the slot; and the auto-save effect's dependency is exactly the
count — it does not fire when the handlers left the count unchanged, and
when the count did change it writes the new count's string form. -/
theorem persistence_mirrors_count_only :
    (∀ (stored : Option String) (evs : List Event),
      (reached stored evs).slot = some (jsToString (reached stored evs).count)) ∧
    (∀ (w : Widget) (s : String), (dispatch (Event.stepInput s) w).slot = w.slot) ∧
    (∀ (ev : Event) (w : Widget), (handle ev w).count = w.count →
      (dispatch ev w).slot = w.slot) ∧
    (∀ (ev : Event) (w : Widget), ¬ (handle ev w).count = w.count →
      (dispatch ev w).slot = some (jsToString (handle ev w).count)) := by
  refine ⟨?_, ?_, ?_, ?_⟩
  · intro stored evs
    exact (Inv_reached stored evs).2.2.1
  · intro w s
    unfold dispatch
    rw [handle_stepInput, runEffects_slot_of_count_eq _ _ (handleStepChange_count s w)]
    exact handleStepChange_slot s w
  · intro ev w h
    unfold dispatch
    rw [runEffects_slot_of_count_eq _ _ h, handle_slot]
  · intro ev w h
    unfold dispatch
    rw [runEffects_slot_of_count_ne _ _ h]

/-- Witness for C4: one event that leaves the count unchanged and keeps
the slot, one that changes it and rewrites the slot. -/
theorem persistence_mirrors_count_only_witness :
    (dispatch (Event.stepInput ("9")) (mountAndRun none)).slot = (mountAndRun none).slot ∧
    (dispatch Event.clickInc (mountAndRun none)).slot
      = some (jsToString (handle Event.clickInc (mountAndRun none)).count) :=
  ⟨persistence_mirrors_count_only.2.2.1 (Event.stepInput ("9")) (mountAndRun none) (by decide),
    persistence_mirrors_count_only.2.2.2 Event.clickInc (mountAndRun none) (by decide)⟩

/-- C5: Keyboard input uses the current step and maps exactly as
specified: in every reachable state an ArrowUp keydown behaves as
`applyDelta (+step)` and an ArrowDown keydown as `applyDelta (-step)` with
the step in effect at the keypress; every other key leaves the state
entirely unchanged; and after setting the step to 5, one ArrowUp raises
the count by exactly 5. -/
theorem keyboard_uses_current_step :
    (∀ (stored : Option String) (evs : List Event),
      (dispatch (Event.keydown ("ArrowUp")) (reached stored evs)).count
        = (applyDelta (reached stored evs).step (reached stored evs)).count ∧
      (dispatch (Event.keydown ("ArrowUp")) (reached stored evs)).history
        = (applyDelta (reached stored evs).step (reached stored evs)).history ∧
      (dispatch (Event.keydown ("ArrowDown")) (reached stored evs)).count
        = (applyDelta (-(reached stored evs).step) (reached stored evs)).count ∧
      (dispatch (Event.keydown ("ArrowDown")) (reached stored evs)).history
        = (applyDelta (-(reached stored evs).step) (reached stored evs)).history) ∧
    (∀ (stored : Option String) (evs : List Event) (k : String),
      ¬ k = "ArrowUp" → ¬ k = "ArrowDown" →
        dispatch (Event.keydown k) (reached stored evs) = reached stored evs) ∧
    ((dispatch (Event.keydown ("ArrowUp"))
        (dispatch (Event.stepInput ("5")) (mountAndRun none))).count
      = jsAdd (dispatch (Event.stepInput ("5")) (mountAndRun none)).count 5) := by
  refine ⟨?_, ?_, by decide⟩
  · intro stored evs
    have hl := (Inv_reached stored evs).1
    unfold dispatch
    rw [handle_keydown, handle_keydown, hl, keyFold_singleton, keyFold_singleton,
      handleKeyPress_up, handleKeyPress_down]
    exact ⟨runEffects_count _ _, runEffects_history _ _, runEffects_count _ _,
      runEffects_history _ _⟩
  · intro stored evs k h1 h2
    have hl := (Inv_reached stored evs).1
    unfold dispatch
    rw [handle_keydown, hl, keyFold_singleton, handleKeyPress_other _ _ _ h1 h2,
      runEffects_self]

/-- Witness for C5 at a concrete reachable state and the key "x". -/
theorem keyboard_uses_current_step_witness :
    dispatch (Event.keydown ("x")) (reached none []) = reached none [] :=
  keyboard_uses_current_step.2.1 none [] ("x") (by decide) (by decide)

/-- C6: Listener exclusivity: every reachable state has exactly one
keydown listener attached, namely the one capturing the current step, so a
single ArrowUp keydown appends exactly one history entry and moves the
count once by the current step; and the unmount cleanup leaves no listener
attached. -/
theorem listener_exclusivity :
    (∀ (stored : Option String) (evs : List Event),
      (reached stored evs).listeners = [(reached stored evs).step] ∧
      (reached stored evs).listeners.length = 1) ∧
    (∀ (stored : Option String) (evs : List Event),
      (dispatch (Event.keydown ("ArrowUp")) (reached stored evs)).history.length
        = (reached stored evs).history.length + 1 ∧
      (dispatch (Event.keydown ("ArrowUp")) (reached stored evs)).count
        = jsAdd (reached stored evs).count (reached stored evs).step) ∧
    (∀ (stored : Option String) (evs : List Event),
      unmountDoc (reached stored evs) = []) := by
  refine ⟨?_, ?_, ?_⟩
  · intro stored evs
    have hl := (Inv_reached stored evs).1
    exact ⟨hl, by rw [hl]; rfl⟩
  · intro stored evs
    have hl := (Inv_reached stored evs).1
    unfold dispatch
    rw [handle_keydown, hl, keyFold_singleton, handleKeyPress_up]
    constructor
    · rw [runEffects_history, applyDelta_history, List.length_append]
      rfl
    · rw [runEffects_count, applyDelta_count]
  · intro stored evs
    have hl := (Inv_reached stored evs).1
    unfold unmountDoc
    rw [hl]
    exact List.erase_cons_head _ _

/-- C8: Step clamping and rejection: an input parsing to the integer n
sets the step to max 1 n; a non-numeric input is a complete no-op; the
inputs "0" and "-5" both clamp the step to 1; and every reachable state
has step at least 1. -/
theorem step_clamp_and_rejection :
    (∀ (w : Widget) (s : String) (n : Int), parseIntJS s = some n →
      (dispatch (Event.stepInput s) w).step = max 1 n) ∧
    (∀ (w : Widget) (s : String), parseIntJS s = none →
      dispatch (Event.stepInput s) w = w) ∧
    ((dispatch (Event.stepInput ("0")) (mountAndRun none)).step = 1 ∧
      (dispatch (Event.stepInput ("-5")) (mountAndRun none)).step = 1) ∧
    (∀ (stored : Option String) (evs : List Event),
      1 ≤ (reached stored evs).step) := by
  refine ⟨?_, ?_, ⟨by decide, by decide⟩, ?_⟩
  · intro w s n h
    unfold dispatch
    rw [handle_stepInput, runEffects_step]
    unfold handleStepChange
    rw [h]
  · intro w s h
    unfold dispatch
    rw [handle_stepInput,
      show handleStepChange s w = w by unfold handleStepChange; rw [h],
      runEffects_self]
  · intro stored evs
    exact (Inv_reached stored evs).2.2.2

/-- Witness for C8: the input "-5" clamps to 1 and the input "abc" is a
no-op. -/
theorem step_clamp_and_rejection_witness :
    (dispatch (Event.stepInput ("-5")) (mountAndRun none)).step = max 1 (-5) ∧
    dispatch (Event.stepInput ("abc")) (mountAndRun none) = mountAndRun none :=
  ⟨step_clamp_and_rejection.1 (mountAndRun none) ("-5") (-5) (by decide),
    step_clamp_and_rejection.2.1 (mountAndRun none) ("abc") (by decide)⟩

/-- C9: Initialization: mounting with an empty slot yields count 0,
history [0] and step 1; mounting with the stored value "7" yields count 7
and history [7]; and initialization runs exactly once per widget lifetime:
after mount, the state an event dispatch produces is independent of the
persisted slot's contents, which are never read again. -/
theorem initialization_once_and_values :
    ((mountAndRun none).count = some 0 ∧ (mountAndRun none).history = [some 0] ∧
      (mountAndRun none).step = 1) ∧
    ((mountAndRun (some ("7"))).count = some 7 ∧
      (mountAndRun (some ("7"))).history = [some 7]) ∧
    (∀ (ev : Event) (w : Widget) (s : Option String),
      (dispatch ev { w with slot := s }).count = (dispatch ev w).count ∧
      (dispatch ev { w with slot := s }).history = (dispatch ev w).history ∧
      (dispatch ev { w with slot := s }).step = (dispatch ev w).step ∧
      (dispatch ev { w with slot := s }).listeners = (dispatch ev w).listeners) := by
  exact ⟨⟨by decide, by decide, by decide⟩, ⟨by decide, by decide⟩,
    fun ev w s => dispatch_slotSet_core ev w s⟩

/-- C10: Initialization parses the stored string with `parseInt`, which
accepts any string beginning with a decimal integer and ignores trailing
non-numeric characters: the stored value "7abc" seeds count 7 and history
[7]; a string with no leading integer, such as "abc", produces a
non-numeric count; a leading sign is honored, as in "-12px". -/
theorem parseint_accepts_leading_digits :
    parseIntJS ("7abc") = some 7 ∧
    (mountAndRun (some ("7abc"))).count = some 7 ∧
    (mountAndRun (some ("7abc"))).history = [some 7] ∧
    parseIntJS ("abc") = none ∧
    (mountAndRun (some ("abc"))).count = none ∧
    (mountAndRun (some ("abc"))).history = [none] ∧
    parseIntJS ("-12px") = some (-12) := by
  exact ⟨by decide, by decide, by decide, by decide, by decide, by decide, by decide⟩

end AdvancedCounter
